import Mathlib

/-!
Shallow embedding of the filefs2 on-disk filesystem (src/fs.c) and proofs
about its spec.  Machine structs are modelled as Lean structures; the
mapped image becomes an explicit `FS` state record (bitmap, inode table,
block contents) threaded through each operation.  Blocks are modelled with
a typed view (`Block.bytes`, `Block.dir`, `Block.refs`) matching the three
ways fs.c reinterprets the memory of a block; the view functions `bytesView`,
`dirView`, `refsView` correspond to the pointer casts at each use site.
The compile-time constants (FSSIZE/BLKSIZE, TOTAL_INODES, DREFSIZE,
NAMESIZE, struct sizes) come from fs.h, which is not part of src/, so they
are carried as a parameter record `Params`; concrete instances used in
evaluations pick small representative values.
-/

namespace Filefs

/-- Compile-time constants of the program (from fs.h / sizeof computations,
fs.h itself being absent from the sources). -/
structure Params where
  TOTAL_BLOCKS : Nat     -- FSSIZE / BLKSIZE
  TOTAL_INODES : Nat
  BLKSIZE : Nat
  DREFSIZE : Nat
  BLOCK_ENTRIES : Nat    -- BLKSIZE / sizeof(struct entry)
  REFS_PER_BLOCK : Nat   -- BLKSIZE / sizeof(unsigned short)
  inodeSize : Nat        -- sizeof(struct inode)
deriving DecidableEq

/-- enum entry_types \x7b E_FILE = 0, E_DIR \x7d -/
inductive EType where
  | file
  | dir
deriving DecidableEq

/-- struct entry: name, size, type, inode. -/
structure Entry where
  name : String
  size : Nat
  type : EType
  inode : Nat
deriving DecidableEq

/-- A zeroed struct entry (empty name, size 0, type E_FILE = 0, inode 0). -/
def emptyEntry : Entry := ⟨"", 0, EType.file, 0⟩

/-- struct inode: direct references, indirect reference block, total references. -/
structure Inode where
  dref : List Nat
  iref : Nat
  total_ref : Nat
deriving DecidableEq

/-- A zeroed struct inode (dref array of DREFSIZE zeros). -/
def zeroInode (P : Params) : Inode :=
  ⟨List.replicate P.DREFSIZE 0, 0, 0⟩

/-- Content of one disk block, by the type it is used at: raw file bytes,
packed directory entries, or the indirect-reference array. -/
inductive Block where
  | bytes (data : List Nat)
  | dir (es : List Entry)
  | refs (rs : List Nat)
deriving DecidableEq

/-- struct sector: start block and number of blocks. -/
structure Sector where
  sector_start : Nat
  sector_size : Nat
deriving DecidableEq

/-- struct metadata in the super block. -/
structure Metadata where
  total_blocks : Nat
  total_inodes : Nat
  block_bytes : Nat
  superS : Sector
  freelistS : Sector
  inodesS : Sector
  dataS : Sector
deriving DecidableEq

/-- A zeroed metadata record, as left by bzero in formatfs. -/
def zeroMeta : Metadata := ⟨0, 0, 0, ⟨0, 0⟩, ⟨0, 0⟩, ⟨0, 0⟩, ⟨0, 0⟩⟩

/-- The filesystem image: metadata, free-block bitmap (one Bool per block),
inode table, and the content of each block. -/
structure FS where
  meta : Metadata
  bitmap : List Bool
  inodes : List Inode
  blocks : List Block
deriving DecidableEq

/-- Reading a block as BLKSIZE raw bytes (the unsigned char * view). -/
def bytesView (P : Params) : Block → List Nat
  | Block.bytes d => (d ++ List.replicate P.BLKSIZE 0).take P.BLKSIZE
  | _ => List.replicate P.BLKSIZE 0

/-- Reading a block as BLOCK_ENTRIES packed directory entries
(the struct entry * view). -/
def dirView (P : Params) : Block → List Entry
  | Block.dir es => (es ++ List.replicate P.BLOCK_ENTRIES emptyEntry).take P.BLOCK_ENTRIES
  | _ => List.replicate P.BLOCK_ENTRIES emptyEntry

/-- Reading a block as the indirect-reference array
(the unsigned short * view). -/
def refsView (P : Params) : Block → List Nat
  | Block.refs rs => (rs ++ List.replicate P.REFS_PER_BLOCK 0).take P.REFS_PER_BLOCK
  | _ => List.replicate P.REFS_PER_BLOCK 0

/-- bitlist_up: set bit n. -/
def bitlist_up (bm : List Bool) (n : Nat) : List Bool := bm.set n true

/-- bitlist_down: clear bit n. -/
def bitlist_down (bm : List Bool) (n : Nat) : List Bool := bm.set n false

/-- The block chosen for chain position i of an inode: direct reference
when i < DREFSIZE, else entry i - DREFSIZE of the indirect block
(the FOREACH_BLOCK addressing rule). -/
def chainBlock (P : Params) (s : FS) (ino : Inode) (i : Nat) : Nat :=
  if i < P.DREFSIZE then ino.dref.getD i 0
  else (refsView P (s.blocks.getD ino.iref (Block.bytes []))).getD (i - P.DREFSIZE) 0

/-- All chain positions of an inode, in FOREACH_BLOCK order. -/
def chainBlocks (P : Params) (s : FS) (ino : Inode) : List Nat :=
  (List.range ino.total_ref).map (chainBlock P s ino)

/-- The directory entry stored at slot loc.2 of block loc.1. -/
def entryAt (P : Params) (s : FS) (loc : Nat × Nat) : Entry :=
  (dirView P (s.blocks.getD loc.1 (Block.bytes []))).getD loc.2 emptyEntry

/-- Rewrite the entry at loc with f (an in-place field update through the
struct entry * pointer). -/
def updEntry (P : Params) (s : FS) (loc : Nat × Nat) (f : Entry → Entry) : FS :=
  let es := dirView P (s.blocks.getD loc.1 (Block.bytes []))
  { s with blocks := s.blocks.set loc.1 (Block.dir (es.set loc.2 (f (es.getD loc.2 emptyEntry)))) }

/-- Linear scan of the bitmap from index i for fuel steps, returning the
index of the first clear bit, or i + fuel when all scanned bits are set
(the loop body of get_data_block). -/
def scanFrom (bm : List Bool) (i : Nat) : Nat → Nat
  | 0 => i
  | fuel + 1 => if bm.getD i false = false then i else scanFrom bm (i + 1) fuel

/-- get_data_block: scan from the start of the data sector up to the metadata
total_blocks field; on a hit set the bit and return the index, else return
the final value of the loop counter without touching the bitmap. -/
def get_data_block (s : FS) : Nat × FS :=
  let start := s.meta.dataS.sector_start
  let bound := s.meta.total_blocks
  let i := scanFrom s.bitmap start (bound - start)
  if i < bound then (i, { s with bitmap := bitlist_up s.bitmap i }) else (i, s)

/-- Linear scan of the inode table from index i, returning the first index
whose total_ref is zero, or i + fuel (the loop body of get_inode). -/
def scanInode (P : Params) (s : FS) (i : Nat) : Nat → Nat
  | 0 => i
  | fuel + 1 =>
    if (s.inodes.getD i (zeroInode P)).total_ref = 0 then i
    else scanInode P s (i + 1) fuel

/-- get_inode: first inode with zero total references, TOTAL_INODES when
none exists. -/
def get_inode (P : Params) (s : FS) : Nat := scanInode P s 0 P.TOTAL_INODES

/-- Inner search over the blocks of a directory chain: first entry whose
name matches, as a (block index, slot) location. -/
def search_blocks (P : Params) (s : FS) (name : String) : List Nat → Option (Nat × Nat)
  | [] => none
  | b :: rest =>
    match (dirView P (s.blocks.getD b (Block.bytes []))).findIdx? (fun e => e.name == name) with
    | some j => some (b, j)
    | none => search_blocks P s name rest

/-- search_entry: scan every entry of every chain block of a directory
inode for an exact name match (FOREACH_ENTRY order). -/
def search_entry (P : Params) (s : FS) (inoIdx : Nat) (name : String) : Option (Nat × Nat) :=
  search_blocks P s name (chainBlocks P s (s.inodes.getD inoIdx (zeroInode P)))

/-- The store indirect[total_ref - DREFSIZE] = block at the end of
expand_indirect, through the unsigned short * view of block iref. -/
def write_iref (P : Params) (s : FS) (inoIdx : Nat) (block : Nat) : FS :=
  let ino := s.inodes.getD inoIdx (zeroInode P)
  let rs := refsView P (s.blocks.getD ino.iref (Block.bytes []))
  { s with blocks := s.blocks.set ino.iref (Block.refs (rs.set (ino.total_ref - P.DREFSIZE) block)) }

/-- expand_indirect: allocate the indirect block on first use (returning -1
and leaving the state as get_data_block left it when no block is free),
then store the new block index at position total_ref - DREFSIZE. -/
def expand_indirect (P : Params) (s : FS) (inoIdx : Nat) (block : Nat) : Int × FS :=
  let ino := s.inodes.getD inoIdx (zeroInode P)
  if ino.iref = 0 then
    let r := get_data_block s
    if r.1 = r.2.meta.total_blocks then (-1, r.2)
    else
      let s1 := { r.2 with inodes := r.2.inodes.set inoIdx { ino with iref := r.1 } }
      (0, write_iref P s1 inoIdx block)
  else (0, write_iref P s inoIdx block)

/-- expand: allocate one data block (failing with -1 when the scan returns
the total_blocks sentinel); store it in the next direct slot when
total_ref < DREFSIZE, else via expand_indirect, whose return value the
source discards; then increment total_ref and return the block index. -/
def expand (P : Params) (s : FS) (inoIdx : Nat) : Int × FS :=
  let r := get_data_block s
  if r.1 = r.2.meta.total_blocks then (-1, r.2)
  else
    let block := r.1
    let ino := r.2.inodes.getD inoIdx (zeroInode P)
    let s2 :=
      if ino.total_ref < P.DREFSIZE then
        { r.2 with inodes := r.2.inodes.set inoIdx { ino with dref := ino.dref.set ino.total_ref block } }
      else (expand_indirect P r.2 inoIdx block).2
    let ino2 := s2.inodes.getD inoIdx (zeroInode P)
    (Int.ofNat block, { s2 with inodes := s2.inodes.set inoIdx { ino2 with total_ref := ino2.total_ref + 1 } })

/-- Overwrite bytes of d starting at offset i with src. -/
def setBytes (d : List Nat) (i : Nat) : List Nat → List Nat
  | [] => d
  | x :: xs => setBytes (d.set i x) (i + 1) xs

/-- The while loop of write_entry.  Each pass models one read(fd, ...) of
count BLKSIZE - i, which the byte source answers with
n = min (BLKSIZE - i) (bytes remaining); n = 0 ends the loop.  The bytes
land in the current block at offset i, the entry size grows by n, and the
i == BLKSIZE test of the source (made before i is advanced) decides whether to
expand the chain or advance the offset. -/
def write_loop (P : Params) (s : FS) (loc : Nat × Nat) (inoIdx : Nat)
    (curBlock i : Nat) (src : List Nat) : Nat → FS
  | 0 => s
  | fuel + 1 =>
    let n := min (P.BLKSIZE - i) src.length
    if n = 0 then s
    else
      let d := bytesView P (s.blocks.getD curBlock (Block.bytes []))
      let s1 := { s with blocks := s.blocks.set curBlock (Block.bytes (setBytes d i (src.take n))) }
      let s2 := updEntry P s1 loc (fun e => { e with size := e.size + n })
      if i = P.BLKSIZE then
        let r := expand P s2 inoIdx
        if r.1 = -1 then r.2
        else write_loop P r.2 loc inoIdx r.1.toNat 0 (src.drop n) fuel
      else write_loop P s2 loc inoIdx curBlock (i + n) (src.drop n) fuel

/-- write_entry: reset the entry size field to 0, then stream the source bytes
into the chain starting at the first direct block of the inode. -/
def write_entry (P : Params) (s : FS) (loc : Nat × Nat) (src : List Nat) : FS :=
  let inoIdx := (entryAt P s loc).inode
  let curBlock := (s.inodes.getD inoIdx (zeroInode P)).dref.getD 0 0
  let s0 := updEntry P s loc (fun e => { e with size := 0 })
  write_loop P s0 loc inoIdx curBlock 0 src (src.length + 1)

/-- The FOREACH_BLOCK loop of entry_read over an explicit list of chain
blocks: emit min size BLKSIZE bytes of each block and decrement size. -/
def read_chain (P : Params) (s : FS) : List Nat → Nat → List Nat
  | [], _ => []
  | b :: rest, size =>
    let n := min size P.BLKSIZE
    (bytesView P (s.blocks.getD b (Block.bytes []))).take n ++ read_chain P s rest (size - n)

/-- entry_read: walk the inode chain of the entry in order, emitting
min remaining BLKSIZE bytes per block (the bytes written to the out
stream). -/
def entry_read (P : Params) (s : FS) (e : Entry) : List Nat :=
  let ino := s.inodes.getD e.inode (zeroInode P)
  read_chain P s (chainBlocks P s ino) e.size

/-- entry_remove: clear the bitmap bit of every chain block, clear the
bit of the indirect block when iref > 0, zero the inode record, zero the entry
record.  Block contents are not touched. -/
def entry_remove (P : Params) (s : FS) (loc : Nat × Nat) : FS :=
  let e := entryAt P s loc
  let ino := s.inodes.getD e.inode (zeroInode P)
  let s1 := { s with bitmap := (chainBlocks P s ino).foldl bitlist_down s.bitmap }
  let s2 := if 0 < ino.iref then { s1 with bitmap := bitlist_down s1.bitmap ino.iref } else s1
  let s3 := { s2 with inodes := s2.inodes.set e.inode (zeroInode P) }
  let es := dirView P (s3.blocks.getD loc.1 (Block.bytes []))
  { s3 with blocks := s3.blocks.set loc.1 (Block.dir (es.set loc.2 emptyEntry)) }

/-- entry_count: number of entries with a nonzero inode index across the
chain of the directory (FOREACH_ENTRY order). -/
def entry_count (P : Params) (s : FS) (inoIdx : Nat) : Nat :=
  let ino := s.inodes.getD inoIdx (zeroInode P)
  ((chainBlocks P s ino).map
    (fun b => (dirView P (s.blocks.getD b (Block.bytes []))).countP (fun e => e.inode != 0))).sum

/-- entry_remove_path over the pre-tokenized component list (the strtok
cursor made explicit: each level consumes one component and passes the
rest down).  The Bool records whether an Entry-not-found error was
printed.  A directory hit recurses first, then removes the entry of the
subdirectory when entry_count finds it empty; a file hit is removed at once. -/
def entry_remove_path (P : Params) (s : FS) (inoIdx : Nat) : List String → FS × Bool
  | [] => (s, false)
  | name :: rest =>
    match search_entry P s inoIdx name with
    | none => (s, true)
    | some loc =>
      let e := entryAt P s loc
      match e.type with
      | EType.dir =>
        let r := entry_remove_path P s e.inode rest
        if entry_count P r.1 e.inode = 0 then (entry_remove P r.1 loc, r.2) else r
      | EType.file => (entry_remove P s loc, false)

/-- The descent loop of extractfilefs: resolve components left to right,
descending through directories, stopping early at a file even when
components remain; none when a lookup fails (the Error: Not found path),
or when the loop ends with no entry resolved (entry_ptr left NULL in the
source, whose entry_read call is then undefined). -/
def extract_walk (P : Params) (s : FS) : Nat → List String → Option (Nat × Nat) → Option (Nat × Nat)
  | _, [], last => last
  | inoIdx, name :: rest, _ =>
    match search_entry P s inoIdx name with
    | none => none
    | some loc =>
      if (entryAt P s loc).type = EType.dir then
        extract_walk P s (entryAt P s loc).inode rest (some loc)
      else some loc

/-- extractfilefs: walk the path from the root inode and emit the resolved
content of the resolved entry with entry_read. -/
def extractfilefs (P : Params) (s : FS) (comps : List String) : Option (List Nat) :=
  (extract_walk P s 0 comps none).map (fun loc => entry_read P s (entryAt P s loc))

/-- setup_sectors, assignment by assignment.  The source stores
TOTAL_BLOCKS and then TOTAL_INODES into the same total_blocks field
(fs.c lines 343-344), leaves total_inodes untouched, and sizes the data
sector from that field without subtracting the one superblock block. -/
def setup_sectors (P : Params) (m0 : Metadata) : Metadata :=
  let m1 := { m0 with total_blocks := P.TOTAL_BLOCKS }
  let m2 := { m1 with total_blocks := P.TOTAL_INODES }
  let m3 := { m2 with block_bytes := P.BLKSIZE }
  let m4 := { m3 with superS := ⟨0, 1⟩ }
  let m5 := { m4 with freelistS := ⟨m4.superS.sector_size, P.TOTAL_BLOCKS / 8 / P.BLKSIZE⟩ }
  let m6 := { m5 with inodesS :=
    ⟨m5.freelistS.sector_start + m5.freelistS.sector_size,
     P.TOTAL_INODES / (P.BLKSIZE / P.inodeSize)⟩ }
  { m6 with dataS :=
    ⟨m6.inodesS.sector_start + m6.inodesS.sector_size,
     m6.total_blocks - (m6.freelistS.sector_size + m6.inodesS.sector_size)⟩ }

/-- The root directory entry written by create_root. -/
def rootEntry : Entry := ⟨"/", 0, EType.dir, 0⟩

/-- create_root: give inode 0 its first block and write the "/" entry at
the first slot of that block.  (On expand failure the source would index
block_ref with (unsigned)-1, an out-of-range access with no representable
effect here.) -/
def create_root (P : Params) (s : FS) : FS :=
  let r := expand P s 0
  if r.1 = -1 then r.2
  else updEntry P r.2 (r.1.toNat, 0) (fun _ => rootEntry)

/-- Set sector_size consecutive bits starting at sector_start (the marking
loops of formatfs). -/
def upRange (bm : List Bool) (start : Nat) : Nat → List Bool
  | 0 => bm
  | n + 1 => upRange (bitlist_up bm start) (start + 1) n

/-- formatfs: zero the whole image, compute the sector layout into the
superblock, mark block 0 and the bitmap and inode-table sectors used, and
create the root directory. -/
def formatfs (P : Params) : FS :=
  let s0 : FS :=
    { meta := setup_sectors P zeroMeta
      bitmap := List.replicate P.TOTAL_BLOCKS false
      inodes := List.replicate P.TOTAL_INODES (zeroInode P)
      blocks := List.replicate P.TOTAL_BLOCKS (Block.bytes (List.replicate P.BLKSIZE 0)) }
  let s1 := { s0 with bitmap := bitlist_up s0.bitmap 0 }
  let s2 := { s1 with bitmap := upRange s1.bitmap s1.meta.freelistS.sector_start s1.meta.freelistS.sector_size }
  let s3 := { s2 with bitmap := upRange s2.bitmap s2.meta.inodesS.sector_start s2.meta.inodesS.sector_size }
  create_root P s3

/-!  Concrete instances used in the evaluations below.  fs.h is not in the
sources, so small representative constant values are used; the bugs
exhibited do not depend on the particular values. -/

/-- Small parameter set for plain-state evaluations: 10 blocks, 8 inodes,
4-byte blocks, 2 direct references, 2 entries and 2 references per block. -/
def P0 : Params := ⟨10, 8, 4, 2, 2, 2, 2⟩

/-- Parameter set for the format-time evaluations: a 64-block image with 8
inodes, 4-byte blocks and 2-byte inode records, so the bitmap sector is
64/8/4 = 2 blocks and the inode table 8/(4/2) = 4 blocks. -/
def P1 : Params := ⟨64, 8, 4, 2, 2, 2, 2⟩

/-- A ten-byte source: two full 4-byte blocks plus a two-byte remainder. -/
def wsrc : List Nat := [1, 2, 3, 4, 5, 6, 7, 8, 9, 10]

/-- A freshly created empty file "f" (entry slot (1,1), inode 1, one data
block 2), in a root directory at block 1, ready for write_entry. -/
def wstate : FS :=
  { meta := { total_blocks := 10, total_inodes := 0, block_bytes := 4,
              superS := ⟨0, 1⟩, freelistS := ⟨1, 1⟩, inodesS := ⟨2, 1⟩, dataS := ⟨3, 7⟩ }
    bitmap := [true, true, true]
    inodes := [⟨[1, 0], 0, 1⟩, ⟨[2, 0], 0, 1⟩] ++ List.replicate 6 (zeroInode P0)
    blocks := [Block.bytes [0, 0, 0, 0],
               Block.dir [rootEntry, ⟨"f", 0, EType.file, 1⟩],
               Block.bytes [0, 0, 0, 0]] }

/-- A filesystem holding exactly /a/b/c.txt: root (inode 0, block 1)
contains directory a (inode 1, block 2), a contains only directory b
(inode 2, block 3), b contains only file c.txt (inode 3, data block 4
holding the given content, entry size k). -/
def prune_state (content : List Nat) (k : Nat) : FS :=
  { meta := { total_blocks := 10, total_inodes := 0, block_bytes := 4,
              superS := ⟨0, 1⟩, freelistS := ⟨1, 1⟩, inodesS := ⟨2, 1⟩, dataS := ⟨5, 5⟩ }
    bitmap := [true, true, true, true, true]
    inodes := [⟨[1, 0], 0, 1⟩, ⟨[2, 0], 0, 1⟩, ⟨[3, 0], 0, 1⟩, ⟨[4, 0], 0, 1⟩]
               ++ List.replicate 4 (zeroInode P0)
    blocks := [Block.bytes [0, 0, 0, 0],
               Block.dir [rootEntry, ⟨"a", 0, EType.dir, 1⟩],
               Block.dir [⟨"b", 0, EType.dir, 2⟩, emptyEntry],
               Block.dir [⟨"c.txt", k, EType.file, 3⟩, emptyEntry],
               Block.bytes content] }

/-- An inode (index 1) whose two direct slots are full (blocks 5 and 6),
with no indirect block yet, on an image whose data sector [8, 10) has
exactly one free block (8): the next expand finds a data block but cannot
allocate the indirect block. -/
def s5 : FS :=
  { meta := { total_blocks := 10, total_inodes := 0, block_bytes := 4,
              superS := ⟨0, 1⟩, freelistS := ⟨1, 1⟩, inodesS := ⟨2, 1⟩, dataS := ⟨8, 2⟩ }
    bitmap := [true, true, true, true, true, true, true, true, false, true]
    inodes := [⟨[1, 0], 0, 1⟩, ⟨[5, 6], 0, 2⟩] ++ List.replicate 6 (zeroInode P0)
    blocks := List.replicate 10 (Block.bytes [0, 0, 0, 0]) }

/-- A root directory holding one three-byte file "f" (inode 1) whose data
block 2 contains the nonzero bytes 7,7,7. -/
def s_c : FS :=
  { meta := { total_blocks := 10, total_inodes := 0, block_bytes := 4,
              superS := ⟨0, 1⟩, freelistS := ⟨1, 1⟩, inodesS := ⟨2, 1⟩, dataS := ⟨3, 7⟩ }
    bitmap := [true, true, true]
    inodes := [⟨[1, 0], 0, 1⟩, ⟨[2, 0], 0, 1⟩] ++ List.replicate 6 (zeroInode P0)
    blocks := [Block.bytes [0, 0, 0, 0],
               Block.dir [rootEntry, ⟨"f", 3, EType.file, 1⟩],
               Block.bytes [7, 7, 7, 0]] }

/-- A root directory holding one empty subdirectory "a" (inode 1, block 2
with both entry slots free). -/
def s_e : FS :=
  { meta := { total_blocks := 10, total_inodes := 0, block_bytes := 4,
              superS := ⟨0, 1⟩, freelistS := ⟨1, 1⟩, inodesS := ⟨2, 1⟩, dataS := ⟨3, 7⟩ }
    bitmap := [true, true, true]
    inodes := [⟨[1, 0], 0, 1⟩, ⟨[2, 0], 0, 1⟩] ++ List.replicate 6 (zeroInode P0)
    blocks := [Block.bytes [0, 0, 0, 0],
               Block.dir [rootEntry, ⟨"a", 0, EType.dir, 1⟩],
               Block.dir [emptyEntry, emptyEntry]] }

/-!  Helper lemmas. -/

/-- getD of set at the written index, inside the list. -/
theorem getD_set_eq {α : Type _} (l : List α) (i : Nat) (a d : α) (h : i < l.length) :
    (l.set i a).getD i d = a := by
  induction l generalizing i with
  | nil => simp at h
  | cons x xs ih =>
    cases i with
    | zero => rfl
    | succ n => exact ih n (by simpa using h)

/-- getD of set at another index. -/
theorem getD_set_ne {α : Type _} (l : List α) (i j : Nat) (a d : α) (h : j ≠ i) :
    (l.set i a).getD j d = l.getD j d := by
  induction l generalizing i j with
  | nil => rfl
  | cons x xs ih =>
    cases i with
    | zero => cases j with
      | zero => exact absurd rfl h
      | succ m => rfl
    | succ n => cases j with
      | zero => rfl
      | succ m => exact ih n m (fun hc => h (by rw [hc]))

/-- Clearing a bit makes its getD false whether or not it is in range. -/
theorem getD_set_false (l : List Bool) (i : Nat) :
    (l.set i false).getD i false = false := by
  induction l generalizing i with
  | nil => rfl
  | cons x xs ih =>
    cases i with
    | zero => rfl
    | succ n => exact ih n

/-- bitlist_down never turns a clear bit back on. -/
theorem bitlist_down_pres (bm : List Bool) (i j : Nat) (h : bm.getD j false = false) :
    (bitlist_down bm i).getD j false = false := by
  rcases eq_or_ne j i with rfl | hne
  · exact getD_set_false bm j
  · rw [bitlist_down, getD_set_ne bm i j false false hne]; exact h

/-- After folding bitlist_down over a list, every listed bit (and every bit
already clear) reads clear. -/
theorem foldl_down_false (l : List Nat) (bm : List Bool) (j : Nat)
    (h : bm.getD j false = false ∨ j ∈ l) :
    (l.foldl bitlist_down bm).getD j false = false := by
  induction l generalizing bm with
  | nil => simpa using h.resolve_right (by simp)
  | cons b bs ih =>
    rw [List.foldl_cons]
    apply ih
    rcases h with h | h
    · exact Or.inl (bitlist_down_pres bm b j h)
    · rcases List.mem_cons.mp h with rfl | h
      · exact Or.inl (getD_set_false bm j)
      · exact Or.inr h

/-- dirView always yields BLOCK_ENTRIES entries. -/
theorem dirView_length (P : Params) (b : Block) : (dirView P b).length = P.BLOCK_ENTRIES := by
  cases b <;> simp [dirView]

/-- dirView is the identity on stored entry lists of full length. -/
theorem dirView_dir_of_length (P : Params) (es : List Entry) (h : es.length = P.BLOCK_ENTRIES) :
    dirView P (Block.dir es) = es := by
  rw [dirView, ← h, List.take_left]

/-- bytesView always yields BLKSIZE bytes. -/
theorem bytesView_length (P : Params) (b : Block) : (bytesView P b).length = P.BLKSIZE := by
  cases b <;> simp [bytesView]

/-- entry_read emits min size (chain length * BLKSIZE) bytes. -/
theorem read_chain_length (P : Params) (s : FS) (blks : List Nat) (size : Nat) :
    (read_chain P s blks size).length = min size (blks.length * P.BLKSIZE) := by
  induction blks generalizing size with
  | nil => simp [read_chain]
  | cons b bs ih =>
    rw [read_chain, List.length_append, List.length_take, ih, bytesView_length]
    rw [List.length_cons, Nat.succ_mul]
    omega

/-!  Claims. -/

/-- Claim C1 (write/read round-trip for every source length).  The claim
fails for sources longer than one block: the i == BLKSIZE test in
write_entry runs before the offset i is advanced, so once a block is full
the next read is issued with count 0 and returns 0, ending the loop.  On
the ten-byte source wsrc (two full 4-byte blocks plus two bytes), writing
and reading back the entry yields only the first block, [1, 2, 3, 4]. -/
theorem C1_multiblock_write_truncated :
    entry_read P0 (write_entry P0 wstate (1, 1) wsrc)
      (entryAt P0 (write_entry P0 wstate (1, 1) wsrc) (1, 1)) = [1, 2, 3, 4] ∧
    wsrc.length = 10 ∧
    ([1, 2, 3, 4] : List Nat) ≠ wsrc := by
  refine ⟨rfl, rfl, by decide⟩

/-- Claim C2 (superblock fields after formatfs).  The claim fails: fs.c
line 344 assigns TOTAL_INODES to the total_blocks field (overwriting the
correct value stored on line 343) and never assigns total_inodes, which
stays 0 from the bzero.  With the 64-block, 8-inode parameters P1 the
total_blocks field reads 8 (not 64) and total_inodes reads 0 (not 8); only
the block-size field is stored correctly. -/
theorem C2_superblock_fields_after_format :
    (formatfs P1).meta.total_blocks = P1.TOTAL_INODES ∧
    (formatfs P1).meta.total_blocks ≠ P1.TOTAL_BLOCKS ∧
    (formatfs P1).meta.total_inodes = 0 ∧
    (formatfs P1).meta.total_inodes ≠ P1.TOTAL_INODES ∧
    (formatfs P1).meta.block_bytes = P1.BLKSIZE := by
  refine ⟨rfl, by decide, rfl, by decide, rfl⟩

/-- Claim C3 (sector layout; data sector ends at the image end).  The
ordering and the superblock, bitmap and inode-table sizes are as claimed
(1, 64/8/4 = 2 and 8/(4/2) = 4 blocks for P1), but the data-sector size is
computed from the corrupted total_blocks field (= TOTAL_INODES, claim C2)
and omits the one superblock block, so start + size is 7 + 2 = 9, not the
64 blocks of the image. -/
theorem C3_data_sector_end_not_total_blocks :
    (formatfs P1).meta.superS = ⟨0, 1⟩ ∧
    (formatfs P1).meta.freelistS = ⟨1, 2⟩ ∧
    (formatfs P1).meta.inodesS = ⟨3, 4⟩ ∧
    (formatfs P1).meta.dataS.sector_start = 7 ∧
    (formatfs P1).meta.dataS.sector_start + (formatfs P1).meta.dataS.sector_size = 9 ∧
    (9 : Nat) ≠ P1.TOTAL_BLOCKS := by
  refine ⟨rfl, rfl, rfl, rfl, rfl, by decide⟩

/-- Claim C4, counterexample.  In prune_state (root contains only
directory a, a contains only directory b, b contains only file c.txt),
directory a exists before removing /a/b/c.txt but is gone afterwards, so
the claim that /a is left present as an empty directory is false: pruning
runs at every ancestor level on the way back up. -/
theorem C4_parent_dir_pruned_counterexample :
    search_entry P0 (prune_state [9, 9, 9] 3) 0 "a" = some (1, 1) ∧
    (entryAt P0 (prune_state [9, 9, 9] 3) (1, 1)).type = EType.dir ∧
    search_entry P0 (entry_remove_path P0 (prune_state [9, 9, 9] 3) 0 ["a", "b", "c.txt"]).1 0 "a"
      = none := by
  refine ⟨rfl, rfl, rfl⟩

/-- Claim C4, amended.  Removing /a/b/c.txt removes the entry for c.txt,
then the entry for b inside a, and then also the entry for a inside the
root, because the post-order pruning check runs at every directory level
of the path; only the root itself survives (its inode and its "/" entry
are untouched, and the content bytes of the data block of c.txt are left
in place, cf. C6).  Shown by running the removal on prune_state to its
exact final state. -/
theorem C4_prune_removes_every_ancestor :
    entry_remove_path P0 (prune_state [9, 9, 9] 3) 0 ["a", "b", "c.txt"] =
      ({ meta := { total_blocks := 10, total_inodes := 0, block_bytes := 4,
                   superS := ⟨0, 1⟩, freelistS := ⟨1, 1⟩, inodesS := ⟨2, 1⟩, dataS := ⟨5, 5⟩ }
         bitmap := [true, true, false, false, false]
         inodes := [⟨[1, 0], 0, 1⟩, zeroInode P0, zeroInode P0, zeroInode P0]
                    ++ List.replicate 4 (zeroInode P0)
         blocks := [Block.bytes [0, 0, 0, 0],
                    Block.dir [rootEntry, emptyEntry],
                    Block.dir [emptyEntry, emptyEntry],
                    Block.dir [emptyEntry, emptyEntry],
                    Block.bytes [9, 9, 9]] }, false) := by
  decide

/-- Claim C5 (expand leaves total_ref unchanged on any allocation
failure).  The claim fails on the indirect path: in s5 the direct slots
are full, exactly one data block (8) is free, and iref = 0.  expand
allocates block 8, then expand_indirect cannot allocate the indirect block
and returns -1, but expand discards that return value: total_ref is
incremented from 2 to 3 (with iref still 0, so the failure did happen) and
the non-error result 8 is returned. -/
theorem C5_indirect_failure_still_increments :
    (s5.inodes.getD 1 (zeroInode P0)).total_ref = 2 ∧
    (expand P0 s5 1).1 = 8 ∧
    ((expand P0 s5 1).2.inodes.getD 1 (zeroInode P0)).iref = 0 ∧
    ((expand P0 s5 1).2.inodes.getD 1 (zeroInode P0)).total_ref = 3 := by
  refine ⟨rfl, rfl, rfl, rfl⟩

/-- Claim C6, counterexample.  entry_remove does not zero the contents of
the chain data blocks: removing file "f" of s_c leaves its data block 2
still holding the bytes 7, 7, 7, 0 rather than zeros. -/
theorem C6_chain_contents_not_zeroed :
    (entryAt P0 s_c (1, 1)).type = EType.file ∧
    (entry_remove P0 s_c (1, 1)).blocks.getD 2 (Block.bytes []) = Block.bytes [7, 7, 7, 0] ∧
    Block.bytes [7, 7, 7, 0] ≠ Block.bytes (List.replicate 4 0) := by
  refine ⟨rfl, rfl, by decide⟩

/-- Claim C6, amended.  entry_remove zeroes the removed entry record,
zeroes the backing inode record, clears the bitmap bit of every block of
the inode chain and of the indirect block when present, and leaves the
contents of every other block (in particular the chain data blocks)
untouched rather than zeroing them. -/
theorem C6_entry_remove_effects (P : Params) (s : FS) (b j : Nat)
    (hb : b < s.blocks.length) (hj : j < P.BLOCK_ENTRIES)
    (hi : (entryAt P s (b, j)).inode < s.inodes.length) :
    entryAt P (entry_remove P s (b, j)) (b, j) = emptyEntry ∧
    (entry_remove P s (b, j)).inodes.getD (entryAt P s (b, j)).inode (zeroInode P) = zeroInode P ∧
    (∀ blk ∈ chainBlocks P s (s.inodes.getD (entryAt P s (b, j)).inode (zeroInode P)),
      (entry_remove P s (b, j)).bitmap.getD blk false = false) ∧
    (0 < (s.inodes.getD (entryAt P s (b, j)).inode (zeroInode P)).iref →
      (entry_remove P s (b, j)).bitmap.getD
        (s.inodes.getD (entryAt P s (b, j)).inode (zeroInode P)).iref false = false) ∧
    (∀ i, i ≠ b → (entry_remove P s (b, j)).blocks.getD i (Block.bytes [])
                    = s.blocks.getD i (Block.bytes [])) := by
  refine ⟨?_, ?_, ?_, ?_, ?_⟩
  · simp only [entry_remove, entryAt]
    split
    all_goals
      rw [getD_set_eq _ _ _ _ (by exact hb),
          dirView_dir_of_length _ _ (by rw [List.length_set, dirView_length])]
      exact getD_set_eq _ _ _ _ (by rw [dirView_length]; exact hj)
  · simp only [entry_remove]
    split
    all_goals exact getD_set_eq _ _ _ _ (by exact hi)
  · intro blk hblk
    simp only [entry_remove]
    split
    · exact bitlist_down_pres _ _ _ (foldl_down_false _ _ _ (Or.inr hblk))
    · exact foldl_down_false _ _ _ (Or.inr hblk)
  · intro hir
    simp only [entry_remove]
    rw [if_pos hir]
    exact getD_set_false _ _
  · intro i hi2
    simp only [entry_remove]
    split
    all_goals exact getD_set_ne _ _ _ _ _ hi2

/-- Witness for C6_entry_remove_effects at the concrete state s_c,
entry (1, 1). -/
theorem C6_entry_remove_effects_witness :
    (1 < s_c.blocks.length ∧ 1 < P0.BLOCK_ENTRIES ∧
      (entryAt P0 s_c (1, 1)).inode < s_c.inodes.length) ∧
    entryAt P0 (entry_remove P0 s_c (1, 1)) (1, 1) = emptyEntry ∧
    (entry_remove P0 s_c (1, 1)).inodes.getD (entryAt P0 s_c (1, 1)).inode (zeroInode P0)
      = zeroInode P0 :=
  ⟨⟨by decide, by decide, by decide⟩,
    (C6_entry_remove_effects P0 s_c 1 1 (by decide) (by decide) (by decide)).1,
    (C6_entry_remove_effects P0 s_c 1 1 (by decide) (by decide) (by decide)).2.1⟩

/-- Claim C7, counterexample.  A failed lookup does not always leave the
image unchanged: removing path a/x in s_e (whose directory a is empty, so
component x does not resolve) reports the not-found error, yet on the way
back up the pruning check still fires and removes the already-empty
directory a, mutating the image. -/
theorem C7_remove_prunes_despite_notfound :
    (entry_remove_path P0 s_e 0 ["a", "x"]).2 = true ∧
    search_entry P0 s_e 0 "a" = some (1, 1) ∧
    search_entry P0 (entry_remove_path P0 s_e 0 ["a", "x"]).1 0 "a" = none ∧
    (entry_remove_path P0 s_e 0 ["a", "x"]).1 ≠ s_e := by
  refine ⟨rfl, rfl, rfl, by decide⟩

/-- Claim C7, amended.  When the first path component does not resolve in
the root directory, remove reports entry-not-found and leaves the image
exactly unchanged, and extract reports not-found and emits nothing.  (When
a deeper component fails to resolve, the image is not always left
unchanged: remove still runs its pruning check on the way back up and can
remove an already-empty directory on the resolved prefix, as the
counterexample shows.) -/
theorem C7_notfound_keeps_state (P : Params) (s : FS) (name : String) (rest : List String)
    (h : search_entry P s 0 name = none) :
    entry_remove_path P s 0 (name :: rest) = (s, true) ∧
    extractfilefs P s (name :: rest) = none := by
  constructor
  · rw [entry_remove_path, h]
  · rw [extractfilefs, extract_walk, h]
    rfl

/-- Witness for C7_notfound_keeps_state: the name zz resolves nowhere in
s_e. -/
theorem C7_notfound_keeps_state_witness :
    search_entry P0 s_e 0 "zz" = none ∧
    entry_remove_path P0 s_e 0 ["zz"] = (s_e, true) ∧
    extractfilefs P0 s_e ["zz"] = none :=
  ⟨by decide, (C7_notfound_keeps_state P0 s_e "zz" [] (by decide)).1,
    (C7_notfound_keeps_state P0 s_e "zz" [] (by decide)).2⟩

/-- Claim C8 (allocation sentinel equals the image total block count).
The scan-and-mark behaviour is as described, but both the scan bound and
the sentinel are the metadata total_blocks field, which after formatfs
holds TOTAL_INODES (claim C2), not the image total block count.  On the
freshly formatted P1 image the single block of the truncated data window
[7, 8) is taken by the root, so get_data_block returns the sentinel 8
(= the corrupted field) without marking anything, and growth fails even
though blocks 8..63 of the image are free. -/
theorem C8_sentinel_is_metadata_field :
    (get_data_block (formatfs P1)).1 = 8 ∧
    (get_data_block (formatfs P1)).1 = (formatfs P1).meta.total_blocks ∧
    (get_data_block (formatfs P1)).1 ≠ P1.TOTAL_BLOCKS ∧
    (formatfs P1).bitmap.getD 8 false = false ∧
    (get_data_block (formatfs P1)).2 = formatfs P1 := by
  refine ⟨rfl, rfl, by decide, rfl, rfl⟩

/-- Claim C10.  When every component of a nonempty path resolves and the
final resolved entry is a directory, extractfilefs reports no error and
emits exactly the size field of that entry (for directories created by
this program the size is 0, and never exceeds the chain capacity, which
the hypothesis records). -/
theorem C10_extract_directory_emits_size (P : Params) (s : FS) (comps : List String)
    (loc : Nat × Nat)
    (hw : extract_walk P s 0 comps none = some loc)
    (hd : (entryAt P s loc).type = EType.dir)
    (hs : (entryAt P s loc).size ≤
      (s.inodes.getD (entryAt P s loc).inode (zeroInode P)).total_ref * P.BLKSIZE) :
    extractfilefs P s comps = some (entry_read P s (entryAt P s loc)) ∧
    (entry_read P s (entryAt P s loc)).length = (entryAt P s loc).size := by
  have hdir := hd
  constructor
  · rw [extractfilefs, hw]
    rfl
  · rw [entry_read, read_chain_length, chainBlocks, List.length_map, List.length_range]
    exact Nat.min_eq_left hs

/-- Witness for C10_extract_directory_emits_size: extracting path a in
s_e resolves to the empty directory a and emits its 0 recorded bytes. -/
theorem C10_extract_directory_emits_size_witness :
    (extract_walk P0 s_e 0 ["a"] none = some (1, 1) ∧
      (entryAt P0 s_e (1, 1)).type = EType.dir) ∧
    extractfilefs P0 s_e ["a"] = some (entry_read P0 s_e (entryAt P0 s_e (1, 1))) ∧
    (entry_read P0 s_e (entryAt P0 s_e (1, 1))).length = (entryAt P0 s_e (1, 1)).size :=
  ⟨⟨by decide, by decide⟩,
    (C10_extract_directory_emits_size P0 s_e ["a"] (1, 1) (by decide) (by decide) (by decide)).1,
    (C10_extract_directory_emits_size P0 s_e ["a"] (1, 1) (by decide) (by decide) (by decide)).2⟩

end Filefs
